import Mathlib

/-!
A verification development for the ctdb node-management code of sambacc
(`sambacc/ctdb.py` and `sambacc/commands/ctdb.py`).

File text is modelled as `String` (Lean strings are lists of characters,
so Python's character-level operations translate directly).  A file that
may be absent is an `Option String`, with `none` for "no such file".
Python exceptions are modelled with `Except`: a function that can raise
returns `Except ε α`; where the state written before the raise matters,
the error value carries the state as it stood when the exception was
raised, so "no write happened before the raise" is a provable statement
rather than a modelling convention.
-/

namespace Sambacc

/-- The ASCII whitespace characters removed by Python's `str.strip()`. -/
def isPySpace (c : Char) : Bool :=
  c == ' ' || c == '\t' || c == '\n' || c == '\r' || c == '\x0b' || c == '\x0c'

/-- Python `str.strip()` on a character list: drop leading and trailing
whitespace. -/
def pyStripChars (cs : List Char) : List Char :=
  ((cs.dropWhile isPySpace).reverse.dropWhile isPySpace).reverse

/-- Python `str.strip()`. -/
def pyStrip (s : String) : String := ⟨pyStripChars s.data⟩

/-- Split a character list at newline characters, in the style of
Python's `str.split("\n")`: there is always at least one (possibly
empty) part, and a trailing newline produces a trailing empty part. -/
def splitNl : List Char → List (List Char)
  | [] => [[]]
  | c :: cs =>
    if c = '\n' then [] :: splitNl cs
    else (c :: (splitNl cs).headI) :: (splitNl cs).tail

/-- The chunks produced by iterating over an open text file in Python
(`for line in fh`), with each line's newline terminator removed: all
parts of the newline split except a final empty part. -/
def fileChunks (cs : List Char) : List (List Char) :=
  let parts := splitNl cs
  if parts.getLast? = some [] then parts.dropLast else parts

/-- `read_nodes_file` (sambacc/ctdb.py): read an open ctdb nodes file,
collecting `line.strip()` for every line. -/
def read_nodes_file (s : String) : List String :=
  (fileChunks s.data).map (fun cs => ⟨pyStripChars cs⟩)

/-- `write_nodes_file` (sambacc/ctdb.py): write each node address
followed by a newline; the returned string is the file content. -/
def write_nodes_file : List String → String
  | [] => ""
  | n :: rest => n ++ "\n" ++ write_nodes_file rest

/-- `read_ctdb_nodes` (sambacc/ctdb.py): read the nodes file at a path,
returning the empty list when the file is absent (`FileNotFoundError`). -/
def read_ctdb_nodes : Option String → List String
  | none => []
  | some s => read_nodes_file s

/-- An entry of the `"nodes"` list of the cluster metadata JSON document:
`{"node": address, "pnn": int, "in_nodes": bool}`. -/
structure NodeEntry where
  node : String
  pnn : Int
  in_nodes : Bool
deriving DecidableEq, Repr

/-- Python list indexing `l[i]`, including negative-index-from-the-end
semantics; `none` models an `IndexError`. -/
def pyGet (l : List α) (i : Int) : Option α :=
  let j : Int := if i < 0 then (l.length : Int) + i else i
  if j < 0 then none else l.get? j.toNat

/-- The `for entry in desired` loop of `_node_update_check`
(sambacc/ctdb.py): walk the document entries, accumulating `new_nodes`
(addresses to append to the nodes file) and `need_reload` (entries whose
`in_nodes` flag is to be flipped after a reload).  An entry that matches
its position and has `in_nodes` set is skipped; an entry with `in_nodes`
unset only joins `need_reload`; an entry with `in_nodes` set that does
not match raises `ValueError` when the nodes list is longer than its
pnn, and otherwise joins both accumulators. -/
def nodeUpdateCheckLoop (ctdb_nodes : List String) :
    List NodeEntry → List String → List NodeEntry →
    Except String (List String × List NodeEntry)
  | [], new_nodes, need_reload => .ok (new_nodes, need_reload)
  | e :: rest, new_nodes, need_reload =>
    let matched := pyGet ctdb_nodes e.pnn == some e.node
    if matched && e.in_nodes then
      nodeUpdateCheckLoop ctdb_nodes rest new_nodes need_reload
    else if !e.in_nodes then
      nodeUpdateCheckLoop ctdb_nodes rest new_nodes (need_reload ++ [e])
    else if (ctdb_nodes.length : Int) > e.pnn then
      .error "unexpected pnn for nodes"
    else
      nodeUpdateCheckLoop ctdb_nodes rest (new_nodes ++ [e.node])
        (need_reload ++ [e])

/-- `_node_update_check` (sambacc/ctdb.py): read the current nodes file
and run the decision loop over the document's `"nodes"` entries,
returning `(ctdb_nodes, new_nodes, need_reload)`. -/
def _node_update_check (json_nodes : List NodeEntry) (file : Option String) :
    Except String (List String × List String × List NodeEntry) :=
  let ctdb_nodes := read_ctdb_nodes file
  match nodeUpdateCheckLoop ctdb_nodes json_nodes [] [] with
  | .error m => .error m
  | .ok (new_nodes, need_reload) => .ok (ctdb_nodes, new_nodes, need_reload)

/-- The state touched by a reconciliation pass: the `"nodes"` list of the
cluster metadata JSON document, and the content of the ctdb nodes file
(`none` when the file is absent). -/
structure CtdbState where
  doc : List NodeEntry
  file : Option String
deriving DecidableEq, Repr

/-- The `for entry in need_reload: entry["in_nodes"] = True` mutation of
`_node_update`: the entries in `need_reload` are the very document
objects, so every document entry appearing in `need_reload` has its
`in_nodes` flag set. -/
def flipInNodes (doc : List NodeEntry) (need_reload : List NodeEntry) :
    List NodeEntry :=
  doc.map (fun e => if e ∈ need_reload then { e with in_nodes := true } else e)

/-- `_node_update` (sambacc/ctdb.py): one reconciliation pass.  A
read-only probe runs `_node_update_check`; when it reports nothing to
do the pass returns `false` without writing.  Otherwise the check is
re-run (under the file lock in the source; equal here, the model being
sequential), the nodes file is rewritten as `ctdb_nodes + new_nodes`,
the external `ctdb reloadnodes` control operation runs — its exit status
is the `reloadOk` parameter, and a failure raises
`CalledProcessError` — and only then are the `need_reload` flags flipped
and the document persisted.  The result carries the final state, the
returned boolean, and how many times the reload operation was invoked;
an error carries the state as already written when the exception arose. -/
def _node_update (st : CtdbState) (reloadOk : Bool) :
    Except (String × CtdbState × Nat) (CtdbState × Bool × Nat) :=
  match _node_update_check st.doc st.file with
  | .error m => .error (m, st, 0)
  | .ok (_, test_new_nodes, test_need_reload) =>
    if test_new_nodes.isEmpty && test_need_reload.isEmpty then .ok (st, false, 0)
    else
      match _node_update_check st.doc st.file with
      | .error m => .error (m, st, 0)
      | .ok (ctdb_nodes, new_nodes, need_reload) =>
        if new_nodes.isEmpty && need_reload.isEmpty then .ok (st, false, 0)
        else
          let all_nodes := ctdb_nodes ++ new_nodes
          let st1 : CtdbState :=
            { st with file := some (write_nodes_file all_nodes) }
          if !reloadOk then .error ("reloadnodes failed", st1, 1)
          else .ok ({ st1 with doc := flipInNodes st1.doc need_reload }, true, 1)

/-- `_update_statefile` (sambacc/ctdb.py): raise `ValueError` when some
existing entry already carries the requested pnn, else append a new
entry. -/
def _update_statefile (nodes : List NodeEntry) (node : String) (pnn : Int)
    (in_nodes : Bool) : Except String (List NodeEntry) :=
  if nodes.any (fun e => pnn == e.pnn) then .error "duplicate pnn"
  else .ok (nodes ++ [{ node := node, pnn := pnn, in_nodes := in_nodes }])

/-- `add_node_to_statefile` (sambacc/ctdb.py): load the JSON state file
(an absent or empty file loads as the default `{}`, whose `"nodes"` list
defaults to empty), run `_update_statefile`, and dump the result back.
When `_update_statefile` raises, the dump never runs, so the error
carries the unchanged state. -/
def add_node_to_statefile (st : Option (List NodeEntry)) (node : String)
    (pnn : Int) (in_nodes : Bool) :
    Except (String × Option (List NodeEntry)) (Option (List NodeEntry)) :=
  match _update_statefile (st.getD []) node pnn in_nodes with
  | .error m => .error (m, st)
  | .ok nodes => .ok (some nodes)

/-- The filesystem state touched by `ensure_ctdb_nodes`: the real nodes
file's content and the target recorded in the canonical symlink. -/
structure FsState where
  file : Option String
  link : Option String
deriving DecidableEq, Repr

/-- `ensure_ctdb_nodes` (sambacc/ctdb.py): remove the canonical symlink
if present, re-create it pointing at the real path, and overwrite the
real nodes file with the given list. -/
def ensure_ctdb_nodes (ctdb_nodes : List String) (real_path : String)
    (_st : FsState) : FsState :=
  { file := some (write_nodes_file ctdb_nodes), link := some real_path }

/-- The nodes list `ensure_ctdb_node_present` computes before writing:
the list read from the real path, with the node appended only when not
already present. -/
def nodesAfterAppend (st : FsState) (node : String) : List String :=
  let nodes := read_ctdb_nodes st.file
  if node ∈ nodes then nodes else nodes ++ [node]

/-- The `found_pnn` computed by `ensure_ctdb_node_present`: the index of
the node in the (possibly just-appended) list, `-1` when `list.index`
raises `ValueError`. -/
def foundPnn (st : FsState) (node : String) : Int :=
  match (nodesAfterAppend st node).findIdx? (fun n => n == node) with
  | some i => (i : Int)
  | none => -1

/-- `ensure_ctdb_node_present` (sambacc/ctdb.py): read the nodes file,
append the node when absent, and, when `expected_pnn` is supplied,
raise `ValueError` before any write if it differs from the node's
index; otherwise write the file and symlink via `ensure_ctdb_nodes`. -/
def ensure_ctdb_node_present (st : FsState) (node : String)
    (real_path : String) (expected_pnn : Option Int) :
    Except (String × FsState) FsState :=
  let nodes := nodesAfterAppend st node
  match expected_pnn with
  | some e =>
    if e ≠ foundPnn st node then .error ("expected pnn mismatch", st)
    else .ok (ensure_ctdb_nodes nodes real_path st)
  | none => .ok (ensure_ctdb_nodes nodes real_path st)

/-- One iteration of the retry loop of `ctdb_manage_nodes`
(sambacc/commands/ctdb.py): the monitored pass either returns (resetting
the error counter to zero) or raises (incrementing the counter and
re-raising only once the counter exceeds 10). -/
def superviseStep (errors : Nat) (passOk : Bool) : Except Nat Nat :=
  if passOk then .ok 0
  else if errors + 1 > 10 then .error (errors + 1)
  else .ok (errors + 1)

/-- The retry loop of `ctdb_manage_nodes` run over a finite trace of
pass outcomes (`true` = the monitoring call returned, `false` = it
raised): the final error counter, or the counter value at which the
error was propagated fatally. -/
def ctdb_manage_nodes_run : Nat → List Bool → Except Nat Nat
  | errors, [] => .ok errors
  | errors, r :: rest =>
    match superviseStep errors r with
    | .error e => .error e
    | .ok e => ctdb_manage_nodes_run e rest

/-- Modelled from the spec: `refresh_node_in_cluster_meta` is invoked by
`ctdb_set_node` (sambacc/commands/ctdb.py) but its definition is not
among the sources; per spec §4.4, if an entry for the identity and
claimed pnn already exists and matches, succeed as a no-op refresh,
and otherwise fail with `NodeNotPresent`. -/
def refresh_node_in_cluster_meta (doc : List NodeEntry) (node : String)
    (pnn : Int) : Except String Unit :=
  if doc.any (fun e => e.node == node && e.pnn == pnn) then .ok ()
  else .error "NodeNotPresent"

/-- `ctdb_set_node` (sambacc/commands/ctdb.py), on the document: try the
refresh and return on success; on `NodeNotPresent` fall back to
registering a new entry (`add_node_to_cluster_meta`, whose statefile
update is `_update_statefile`), with `in_nodes` set only for pnn 0. -/
def ctdb_set_node (doc : List NodeEntry) (node : String) (pnn : Int) :
    Except String (List NodeEntry) :=
  match refresh_node_in_cluster_meta doc node pnn with
  | .ok _ => .ok doc
  | .error _ => _update_statefile doc node pnn (pnn == 0)

/-! ### Lemmas about the nodes-file text format -/

theorem splitNl_cons_newline (cs : List Char) :
    splitNl ('\n' :: cs) = [] :: splitNl cs := by
  simp [splitNl]

theorem splitNl_cons_other (c : Char) (cs : List Char) (hc : c ≠ '\n') :
    splitNl (c :: cs) = (c :: (splitNl cs).headI) :: (splitNl cs).tail := by
  simp [splitNl, hc]

theorem splitNl_append_newline (a rest : List Char) (ha : '\n' ∉ a) :
    splitNl (a ++ '\n' :: rest) = a :: splitNl rest := by
  induction a with
  | nil => simp [splitNl_cons_newline]
  | cons c a ih =>
    have hc : c ≠ '\n' := fun h => ha (h ▸ List.mem_cons_self c a)
    have ha' : '\n' ∉ a := fun h => ha (List.mem_cons_of_mem c h)
    rw [List.cons_append, splitNl_cons_other c _ hc, ih ha']
    simp

theorem write_nodes_file_data (n : String) (rest : List String) :
    (write_nodes_file (n :: rest)).data =
      n.data ++ '\n' :: (write_nodes_file rest).data := by
  simp [write_nodes_file, String.data_append]

/-- A string all of whose characters are non-whitespace contains no
newline. -/
theorem no_newline_of_clean {n : String}
    (h : ∀ c ∈ n.data, isPySpace c = false) : '\n' ∉ n.data := by
  intro hmem
  have := h '\n' hmem
  simp [isPySpace] at this

theorem splitNl_write_nodes_file (ns : List String)
    (h : ∀ n ∈ ns, '\n' ∉ n.data) :
    splitNl (write_nodes_file ns).data = ns.map (·.data) ++ [[]] := by
  induction ns with
  | nil => simp [write_nodes_file, splitNl]
  | cons n rest ih =>
    rw [write_nodes_file_data, splitNl_append_newline _ _
      (h n (List.mem_cons_self n rest))]
    rw [ih (fun m hm => h m (List.mem_cons_of_mem n hm))]
    simp

theorem fileChunks_write_nodes_file (ns : List String)
    (h : ∀ n ∈ ns, '\n' ∉ n.data) :
    fileChunks (write_nodes_file ns).data = ns.map (·.data) := by
  rw [fileChunks, splitNl_write_nodes_file ns h]
  simp

theorem dropWhile_eq_self_of_clean {cs : List Char}
    (h : ∀ c ∈ cs, isPySpace c = false) : cs.dropWhile isPySpace = cs := by
  cases cs with
  | nil => rfl
  | cons c cs => simp [List.dropWhile, h c (List.mem_cons_self c cs)]

theorem pyStripChars_eq_self_of_clean {cs : List Char}
    (h : ∀ c ∈ cs, isPySpace c = false) : pyStripChars cs = cs := by
  unfold pyStripChars
  rw [dropWhile_eq_self_of_clean h]
  rw [dropWhile_eq_self_of_clean (fun c hc => h c (List.mem_reverse.mp hc))]
  exact List.reverse_reverse cs

theorem read_write_nodes_file (ns : List String)
    (h : ∀ n ∈ ns, ∀ c ∈ n.data, isPySpace c = false) :
    read_nodes_file (write_nodes_file ns) = ns := by
  unfold read_nodes_file
  rw [fileChunks_write_nodes_file ns (fun n hn => no_newline_of_clean (h n hn))]
  rw [List.map_map]
  refine (List.map_congr_left ?_).trans (List.map_id ns)
  intro n hn
  simp only [Function.comp_apply, id_eq]
  rw [pyStripChars_eq_self_of_clean (h n hn)]

/-! ### Lemmas about the decision loop -/

/-- The decision loop raises `ValueError` exactly when some entry has
`in_nodes` set, does not match its position, and has a pnn strictly
below the length of the nodes-list snapshot (independent of the
accumulators). -/
theorem nodeUpdateCheckLoop_error_iff (c : List String)
    (es : List NodeEntry) : ∀ new rel,
    (∃ m, nodeUpdateCheckLoop c es new rel = Except.error m) ↔
      ∃ e ∈ es, e.in_nodes = true ∧ pyGet c e.pnn ≠ some e.node ∧
        (c.length : Int) > e.pnn := by
  induction es with
  | nil => intro new rel; simp [nodeUpdateCheckLoop]
  | cons e rest ih =>
    intro new rel
    cases hm : (pyGet c e.pnn == some e.node) <;> cases hi : e.in_nodes
    · have hne : pyGet c e.pnn ≠ some e.node := by
        simpa using beq_eq_false_iff_ne.mp hm
      simp [nodeUpdateCheckLoop, hm, hi, ih, hne]
    · by_cases hl : (c.length : Int) > e.pnn
      · have hrun : nodeUpdateCheckLoop c (e :: rest) new rel =
            Except.error "unexpected pnn for nodes" := by
          simp [nodeUpdateCheckLoop, hm, hi, hl]
        rw [hrun]
        constructor
        · intro _
          exact ⟨e, List.mem_cons_self e rest, hi,
            by simpa using beq_eq_false_iff_ne.mp hm, hl⟩
        · intro _; exact ⟨"unexpected pnn for nodes", rfl⟩
      · have hne : pyGet c e.pnn ≠ some e.node := by
          simpa using beq_eq_false_iff_ne.mp hm
        simp [nodeUpdateCheckLoop, hm, hi, hl, ih, hne]
    · have heq : pyGet c e.pnn = some e.node := by simpa using hm
      simp [nodeUpdateCheckLoop, hm, hi, ih, heq]
    · have heq : pyGet c e.pnn = some e.node := by simpa using hm
      simp [nodeUpdateCheckLoop, hm, hi, ih, heq]

/-- Addresses already in the `new_nodes` accumulator survive to the
loop's successful result. -/
theorem nodeUpdateCheckLoop_ok_sub (c : List String)
    (es : List NodeEntry) : ∀ new rel N R,
    nodeUpdateCheckLoop c es new rel = Except.ok (N, R) →
      ∀ x ∈ new, x ∈ N := by
  induction es with
  | nil =>
    intro new rel N R h x hx
    simp [nodeUpdateCheckLoop] at h
    exact h.1 ▸ hx
  | cons e rest ih =>
    intro new rel N R h x hx
    cases hm : (pyGet c e.pnn == some e.node) <;> cases hi : e.in_nodes <;>
      simp [nodeUpdateCheckLoop, hm, hi] at h
    · exact ih _ _ _ _ h x hx
    · by_cases hl : (c.length : Int) > e.pnn
      · simp [hl] at h
      · simp [hl] at h
        exact ih _ _ _ _ h x (List.mem_append_left _ hx)
    · exact ih _ _ _ _ h x hx
    · exact ih _ _ _ _ h x hx

/-- On a successful run of the decision loop, every entry with
`in_nodes` set whose position does not match has its address in the
resulting `new_nodes`. -/
theorem nodeUpdateCheckLoop_ok_mem (c : List String)
    (es : List NodeEntry) : ∀ new rel N R,
    nodeUpdateCheckLoop c es new rel = Except.ok (N, R) →
      ∀ e ∈ es, e.in_nodes = true → pyGet c e.pnn ≠ some e.node →
        e.node ∈ N := by
  induction es with
  | nil => intro new rel N R _ e he; exact absurd he (List.not_mem_nil e)
  | cons e0 rest ih =>
    intro new rel N R h e he hi hne
    rcases List.mem_cons.mp he with he0 | hrest
    · subst he0
      have hm : (pyGet c e.pnn == some e.node) = false :=
        beq_eq_false_iff_ne.mpr hne
      by_cases hl : (c.length : Int) > e.pnn
      · simp [nodeUpdateCheckLoop, hm, hi, hl] at h
      · simp [nodeUpdateCheckLoop, hm, hi, hl] at h
        exact nodeUpdateCheckLoop_ok_sub c rest _ _ _ _ h e.node
          (List.mem_append_right _ (List.mem_singleton.mpr rfl))
    · cases hm0 : (pyGet c e0.pnn == some e0.node) <;>
        cases hi0 : e0.in_nodes <;>
        simp [nodeUpdateCheckLoop, hm0, hi0] at h
      · exact ih _ _ _ _ h e hrest hi hne
      · by_cases hl0 : (c.length : Int) > e0.pnn
        · simp [hl0] at h
        · simp [hl0] at h
          exact ih _ _ _ _ h e hrest hi hne
      · exact ih _ _ _ _ h e hrest hi hne
      · exact ih _ _ _ _ h e hrest hi hne

/-! ### Claim theorems -/

/-- C1: on Document `{nodes:[{10.0.0.10,0,true},{10.0.0.11,1,false}]}`
with Nodes List `["10.0.0.10"]`, one reconciliation pass of the code
flips entry 1's `in_nodes` to true and invokes the reload exactly once,
but leaves the Nodes List at `["10.0.0.10"]`: the `in_nodes=false`
entry's address is never appended, contrary to the claim (and to
`test_manage_nodes` in tests/test_ctdb.py, which asserts the list
becomes `["10.0.0.10","10.0.0.11"]`). -/
theorem c1_scenario_b_no_append :
    _node_update
        ⟨[⟨"10.0.0.10", 0, true⟩, ⟨"10.0.0.11", 1, false⟩],
          some "10.0.0.10\n"⟩ true =
      .ok (⟨[⟨"10.0.0.10", 0, true⟩, ⟨"10.0.0.11", 1, true⟩],
          some "10.0.0.10\n"⟩, true, 1) ∧
    read_ctdb_nodes (some "10.0.0.10\n") = ["10.0.0.10"] := by
  constructor <;> rfl

/-- C2 counterexample: a document entry with `in_nodes=true`, pnn 2 and
an address absent from the one-element Nodes List `["10.0.0.10"]` is
appended by the decision function without any error, although its pnn
(2) is not the current length of the growing Nodes List (1) and pnn 1 is
absent — refuting "appends only when pnn equals the current length" and
"confirming pnn=2 while pnn=1 is absent fails". -/
theorem c2_skip_ahead_accepted :
    _node_update_check [⟨"10.0.0.12", 2, true⟩] (some "10.0.0.10\n") =
      .ok (["10.0.0.10"], ["10.0.0.12"], [⟨"10.0.0.12", 2, true⟩]) ∧
    (2 : Int) ≠ ((read_ctdb_nodes (some "10.0.0.10\n")).length : Int) := by
  constructor
  · rfl
  · decide

/-- C2 (amended): for a document entry with `in_nodes=true` whose
address is missing or mismatched at its position, the decision function
fails with a ValueError — and, propagating, the pass performs no write —
exactly when the entry's pnn is strictly below the length of the
nodes-list snapshot read at the start of the pass; otherwise (pnn at or
beyond that length, skipping ahead included) the address is appended. -/
theorem c2_out_of_order_check (json_nodes : List NodeEntry)
    (file : Option String) :
    ((∃ m, _node_update_check json_nodes file = Except.error m) ↔
      ∃ e ∈ json_nodes, e.in_nodes = true ∧
        pyGet (read_ctdb_nodes file) e.pnn ≠ some e.node ∧
        ((read_ctdb_nodes file).length : Int) > e.pnn) ∧
    (∀ c N R, _node_update_check json_nodes file = Except.ok (c, N, R) →
      ∀ e ∈ json_nodes, e.in_nodes = true →
        pyGet c e.pnn ≠ some e.node →
        (c.length : Int) ≤ e.pnn ∧ e.node ∈ N) ∧
    (∀ st : CtdbState, ∀ r m,
      _node_update_check st.doc st.file = Except.error m →
      _node_update st r = Except.error (m, st, 0)) := by
  refine ⟨?_, ?_, ?_⟩
  · rw [← nodeUpdateCheckLoop_error_iff (read_ctdb_nodes file) json_nodes [] []]
    unfold _node_update_check
    cases h : nodeUpdateCheckLoop (read_ctdb_nodes file) json_nodes [] [] with
    | error m => simp [h]
    | ok p => simp [h]
  · intro c N R h e he hi hne
    unfold _node_update_check at h
    cases h0 : nodeUpdateCheckLoop (read_ctdb_nodes file) json_nodes [] []
      with
    | error m => simp [h0] at h
    | ok p =>
      simp [h0] at h
      obtain ⟨hc, hp⟩ := h
      subst hp
      subst hc
      refine ⟨?_, ?_⟩
      · by_contra hlt
        obtain ⟨m, hm⟩ :=
          (nodeUpdateCheckLoop_error_iff _ json_nodes [] []).mpr
            ⟨e, he, hi, hne, lt_of_not_ge hlt⟩
        rw [h0] at hm
        exact Except.noConfusion hm
      · exact nodeUpdateCheckLoop_ok_mem _ json_nodes [] [] N R h0 e he hi hne
  · intro st r m h
    unfold _node_update
    rw [h]

/-- C2 witness: the amended theorem applied to a one-entry document with
`in_nodes=true`, pnn 0 and a mismatched address against the one-line
nodes file `10.0.0.10`: the check fails (and the pass performs no
write). -/
theorem c2_out_of_order_check_witness :
    _node_update ⟨[⟨"10.0.0.9", 0, true⟩], some "10.0.0.10\n"⟩ true =
      Except.error ("unexpected pnn for nodes",
        ⟨[⟨"10.0.0.9", 0, true⟩], some "10.0.0.10\n"⟩, 0) :=
  (c2_out_of_order_check [⟨"10.0.0.9", 0, true⟩] (some "10.0.0.10\n")).2.2
    ⟨[⟨"10.0.0.9", 0, true⟩], some "10.0.0.10\n"⟩ true
    "unexpected pnn for nodes" (by rfl)

/-- C3: with Document `{nodes:[{10.0.0.10,0,true},{10.0.0.11,1,false}]}`
and Nodes List `["10.0.0.10"]`, a pass whose reload operation fails
aborts with the document unmodified — but the nodes file does not
contain the pending entry's address `10.0.0.11` at that point, because
the code never appended it, contrary to the claim (and to
`test_manage_nodes_refresh_fails` in tests/test_ctdb.py, which asserts
`10.0.0.11` is already in the file when the reload fails). -/
theorem c3_reload_failure_nothing_appended :
    _node_update
        ⟨[⟨"10.0.0.10", 0, true⟩, ⟨"10.0.0.11", 1, false⟩],
          some "10.0.0.10\n"⟩ false =
      .error ("reloadnodes failed",
        ⟨[⟨"10.0.0.10", 0, true⟩, ⟨"10.0.0.11", 1, false⟩],
          some "10.0.0.10\n"⟩, 1) ∧
    "10.0.0.11" ∉ read_ctdb_nodes (some "10.0.0.10\n") := by
  constructor
  · rfl
  · decide

/-- C4: starting from Document
`{nodes:[{10.0.0.10,0,true},{10.0.0.11,1,false}]}` and Nodes List
`["10.0.0.10"]`, the first pass completes successfully, yet the second
pass — with no intervening external change — is not a no-op: it writes
the nodes file again (appending `10.0.0.11`) and invokes the reload a
second time, refuting the idempotence claim. -/
theorem c4_second_pass_writes_again :
    _node_update
        ⟨[⟨"10.0.0.10", 0, true⟩, ⟨"10.0.0.11", 1, false⟩],
          some "10.0.0.10\n"⟩ true =
      .ok (⟨[⟨"10.0.0.10", 0, true⟩, ⟨"10.0.0.11", 1, true⟩],
          some "10.0.0.10\n"⟩, true, 1) ∧
    _node_update
        ⟨[⟨"10.0.0.10", 0, true⟩, ⟨"10.0.0.11", 1, true⟩],
          some "10.0.0.10\n"⟩ true =
      .ok (⟨[⟨"10.0.0.10", 0, true⟩, ⟨"10.0.0.11", 1, true⟩],
          some "10.0.0.10\n10.0.0.11\n"⟩, true, 1) ∧
    some "10.0.0.10\n10.0.0.11\n" ≠ some "10.0.0.10\n" := by
  refine ⟨rfl, rfl, ?_⟩
  decide

/-- C5: registering a pnn already carried by some existing entry fails
with the duplicate-pnn error and leaves the document unchanged (the
raise precedes the dump); from a document where the pnn is fresh, two
successive registrations for that same pnn yield exactly one success
and one duplicate-pnn failure, the failure again leaving the document
as the first registration left it. -/
theorem c5_duplicate_pnn (st : Option (List NodeEntry))
    (node node2 : String) (pnn : Int) (inn inn2 : Bool) :
    ((∃ e ∈ st.getD [], e.pnn = pnn) →
      add_node_to_statefile st node pnn inn =
        Except.error ("duplicate pnn", st)) ∧
    ((¬ ∃ e ∈ st.getD [], e.pnn = pnn) →
      add_node_to_statefile st node pnn inn =
        Except.ok (some (st.getD [] ++ [⟨node, pnn, inn⟩])) ∧
      add_node_to_statefile (some (st.getD [] ++ [⟨node, pnn, inn⟩]))
          node2 pnn inn2 =
        Except.error ("duplicate pnn",
          some (st.getD [] ++ [⟨node, pnn, inn⟩]))) := by
  constructor
  · rintro ⟨e, he, hpe⟩
    have hany : (st.getD []).any (fun e => pnn == e.pnn) = true := by
      simp only [List.any_eq_true, beq_iff_eq]
      exact ⟨e, he, hpe.symm⟩
    simp [add_node_to_statefile, _update_statefile, hany]
  · intro hno
    have hany : (st.getD []).any (fun e => pnn == e.pnn) = false := by
      simp only [List.any_eq_false, beq_iff_eq]
      exact fun e he hpe => hno ⟨e, he, hpe.symm⟩
    have hany2 : ((st.getD [] ++ [(⟨node, pnn, inn⟩ : NodeEntry)]).any
        (fun e => pnn == e.pnn)) = true := by
      simp only [List.any_eq_true, beq_iff_eq]
      exact ⟨⟨node, pnn, inn⟩, List.mem_append_right _ (by simp), rfl⟩
    constructor
    · simp [add_node_to_statefile, _update_statefile, hany]
    · simp [add_node_to_statefile, _update_statefile, hany2]

/-- C5 witness: a concrete document carrying pnn 0; registering pnn 0
again fails with duplicate-pnn and the unchanged document, while from
the empty document the two same-pnn registrations give one success then
one failure. -/
theorem c5_duplicate_pnn_witness :
    (add_node_to_statefile (some [⟨"10.0.0.10", 0, true⟩]) "10.0.0.11" 0
        false =
      Except.error ("duplicate pnn", some [⟨"10.0.0.10", 0, true⟩])) ∧
    (add_node_to_statefile none "10.0.0.10" 0 true =
      Except.ok (some [⟨"10.0.0.10", 0, true⟩]) ∧
    add_node_to_statefile (some [⟨"10.0.0.10", 0, true⟩]) "10.0.0.11" 0
        false =
      Except.error ("duplicate pnn", some [⟨"10.0.0.10", 0, true⟩])) :=
  ⟨(c5_duplicate_pnn (some [⟨"10.0.0.10", 0, true⟩]) "10.0.0.11" "x" 0
      false false).1 ⟨⟨"10.0.0.10", 0, true⟩, by simp, rfl⟩,
   (c5_duplicate_pnn none "10.0.0.10" "10.0.0.11" 0 true false).2
     (by rintro ⟨e, he, _⟩; simp at he)⟩

/-- C6: registering an address/pnn for which a matching entry already
exists in the document succeeds as a no-op refresh: it does not fail
and returns the document unchanged. -/
theorem c6_refresh_noop (doc : List NodeEntry) (node : String) (pnn : Int)
    (h : ∃ e ∈ doc, e.node = node ∧ e.pnn = pnn) :
    ctdb_set_node doc node pnn = Except.ok doc := by
  obtain ⟨e, he, hn, hp⟩ := h
  have hany : doc.any (fun e => e.node == node && e.pnn == pnn) = true := by
    simp only [List.any_eq_true, Bool.and_eq_true, beq_iff_eq]
    exact ⟨e, he, hn, hp⟩
  simp [ctdb_set_node, refresh_node_in_cluster_meta, hany]

/-- C6 witness: refreshing the already-registered node `10.0.0.10` at
pnn 0 leaves the document unchanged. -/
theorem c6_refresh_noop_witness :
    ctdb_set_node [⟨"10.0.0.10", 0, true⟩] "10.0.0.10" 0 =
      Except.ok [⟨"10.0.0.10", 0, true⟩] :=
  c6_refresh_noop [⟨"10.0.0.10", 0, true⟩] "10.0.0.10" 0
    ⟨⟨"10.0.0.10", 0, true⟩, by simp, rfl, rfl⟩

/-- C8: the supervisor loop resets the failure counter to zero on a
successful pass, increments it and continues on an erroring pass while
the incremented counter stays at or below 10, and propagates the error
fatally exactly when the counter exceeds the threshold 10; over a
trace, ten consecutive failures are survived while eleven are fatal. -/
theorem c8_supervisor_bounded_retry :
    (∀ e, superviseStep e true = Except.ok 0) ∧
    (∀ e, e + 1 ≤ 10 → superviseStep e false = Except.ok (e + 1)) ∧
    (∀ e, 10 < e + 1 → superviseStep e false = Except.error (e + 1)) ∧
    (∀ errors rest, ctdb_manage_nodes_run errors (true :: rest) =
      ctdb_manage_nodes_run 0 rest) ∧
    ctdb_manage_nodes_run 0 (List.replicate 10 false) = Except.ok 10 ∧
    ctdb_manage_nodes_run 0 (List.replicate 11 false) = Except.error 11 := by
  refine ⟨?_, ?_, ?_, ?_, by rfl, by rfl⟩
  · intro e; simp [superviseStep]
  · intro e h
    have hn : ¬ (e + 1 > 10) := by omega
    simp [superviseStep, hn]
  · intro e h
    simp [superviseStep, h]
  · intro errors rest
    simp [ctdb_manage_nodes_run, superviseStep]

/-- C8 witness: the theorem applied with a counter of 3 (an erroring
pass continues with counter 4) and with a counter of 10 (an erroring
pass is propagated fatally). -/
theorem c8_supervisor_bounded_retry_witness :
    superviseStep 3 false = Except.ok 4 ∧
    superviseStep 10 false = Except.error 11 :=
  ⟨c8_supervisor_bounded_retry.2.1 3 (by decide),
   c8_supervisor_bounded_retry.2.2.1 10 (by decide)⟩

/-- C10: `ensure_ctdb_node_present` never appends an address already
present in the nodes file (the list it writes is then exactly the list
it read); when `expected_pnn` is supplied and differs from the node's
(possibly just-appended) index, it raises `ValueError` with the nodes
file and symlink untouched; and any successful run writes exactly the
appended list and re-points the symlink. -/
theorem c10_ensure_node_present (st : FsState) (node real_path : String)
    (expected_pnn : Option Int) :
    (node ∈ read_ctdb_nodes st.file →
      nodesAfterAppend st node = read_ctdb_nodes st.file) ∧
    (∀ e, expected_pnn = some e → e ≠ foundPnn st node →
      ensure_ctdb_node_present st node real_path expected_pnn =
        Except.error ("expected pnn mismatch", st)) ∧
    (∀ st2, ensure_ctdb_node_present st node real_path expected_pnn =
        Except.ok st2 →
      st2 = ⟨some (write_nodes_file (nodesAfterAppend st node)),
        some real_path⟩) := by
  refine ⟨?_, ?_, ?_⟩
  · intro hmem
    simp [nodesAfterAppend, hmem]
  · intro e he hne
    subst he
    simp [ensure_ctdb_node_present, hne]
  · intro st2 h
    cases hep : expected_pnn with
    | none =>
      rw [hep] at h
      simp [ensure_ctdb_node_present, ensure_ctdb_nodes] at h
      exact h.symm
    | some e =>
      rw [hep] at h
      by_cases hne : e = foundPnn st node
      · simp [ensure_ctdb_node_present, ensure_ctdb_nodes, hne] at h
        exact h.symm
      · simp [ensure_ctdb_node_present, hne] at h

/-- C10 witness: with the nodes file holding `10.0.0.10` and
`10.0.0.11`, asking for `10.0.0.11` at expected pnn 0 (its index being
1) fails with the state untouched. -/
theorem c10_ensure_node_present_witness :
    ensure_ctdb_node_present ⟨some "10.0.0.10\n10.0.0.11\n", none⟩
        "10.0.0.11" "/var/lib/ctdb/nodes" (some 0) =
      Except.error ("expected pnn mismatch",
        ⟨some "10.0.0.10\n10.0.0.11\n", none⟩) :=
  (c10_ensure_node_present ⟨some "10.0.0.10\n10.0.0.11\n", none⟩
      "10.0.0.11" "/var/lib/ctdb/nodes" (some 0)).2.1 0 rfl (by decide)

/-- C7: reading the nodes list when the backing file is absent returns
the empty sequence rather than an error, and reading an existing file
whose lines are the addresses (one per line, whitespace-free) returns
exactly that ordered sequence. -/
theorem c7_read_absent_and_lines :
    read_ctdb_nodes none = [] ∧
    ∀ ns : List String, (∀ n ∈ ns, ∀ c ∈ n.data, isPySpace c = false) →
      read_ctdb_nodes (some (write_nodes_file ns)) = ns := by
  refine ⟨rfl, ?_⟩
  intro ns h
  exact read_write_nodes_file ns h

/-- C7 witness: the theorem applied to the concrete file with lines
`10.0.0.10` and `10.0.0.11`. -/
theorem c7_read_absent_and_lines_witness :
    read_ctdb_nodes (some (write_nodes_file ["10.0.0.10", "10.0.0.11"])) =
      ["10.0.0.10", "10.0.0.11"] :=
  c7_read_absent_and_lines.2 ["10.0.0.10", "10.0.0.11"] (by decide)

/-- C9: writing a nodes list and reading it back is the identity for
every list of address strings containing no whitespace or newline
characters. -/
theorem c9_write_read_roundtrip (ns : List String)
    (h : ∀ n ∈ ns, ∀ c ∈ n.data, isPySpace c = false) :
    read_nodes_file (write_nodes_file ns) = ns :=
  read_write_nodes_file ns h

/-- C9 witness: the roundtrip at a concrete two-address list. -/
theorem c9_write_read_roundtrip_witness :
    read_nodes_file (write_nodes_file ["192.168.1.5", "10.0.0.7"]) =
      ["192.168.1.5", "10.0.0.7"] :=
  c9_write_read_roundtrip ["192.168.1.5", "10.0.0.7"] (by decide)

end Sambacc
